import Mathlib

/-!
Verification of the omi Python SDK capture-decode-transcribe-react pipeline.

Shallow embedding of the relevant parts of the repository:

* `sdks/python/main.py` — the packet-arrival handler `handle_ble_data` and the
  asyncio queue it pushes decoded PCM frames onto;
* `sdks/python/omi/decoder.py` — `OmiOpusDecoder.decode_packet`, including the
  fallback synthesis path (its Python float arithmetic is modelled exactly:
  binary64 values are dyadic rationals, rounded to nearest with ties to even);
* `sdks/python/omi/transcribe.py` — the reconnect loop of `transcribe`;
* `sdks/python/memory.py` — cooldown-guarded command execution, literal-tier
  hot-command detection, hot-phrase detection, and the remote-first
  local-fallback memory write path.

Byte strings are modelled as `List Nat` (each element a byte value), Python
`time.time()` timestamps as `ℚ`, and external effects (the native Opus
decoder, the PRNG behind `random.randint`, network and subprocess outcomes)
as explicit parameters.
-/

/-! ## asyncio.Queue (main.py) -/

/-- `asyncio.Queue`: `maxsize = 0` means the queue size is unbounded. -/
structure AsyncioQueue (α : Type) where
  maxsize : Nat
  items : List α
deriving DecidableEq

/-- `asyncio.Queue.put_nowait(x)`: if the queue is full (`0 < maxsize` and
`qsize() >= maxsize`) it raises `QueueFull` (modelled by the `false` flag) and
leaves the queue unchanged; otherwise it appends the item.  A queue with
`maxsize = 0` is never full. -/
def put_nowait {α : Type} (q : AsyncioQueue α) (x : α) : AsyncioQueue α × Bool :=
  if 0 < q.maxsize ∧ q.maxsize ≤ q.items.length then (q, false)
  else ({ q with items := q.items ++ [x] }, true)

/-- `main.py` line 62: `audio_queue = Queue()` — constructed with no `maxsize`
argument, hence `maxsize = 0`, i.e. unbounded. -/
def audio_queue : AsyncioQueue (List Nat) :=
  { maxsize := 0, items := [] }

/-! ## Binary64 arithmetic used by the fallback synthesis (decoder.py)

The fallback branch of `decode_packet` evaluates
`int(base_val * envelope)` in Python floats.  All quantities involved fit
comfortably inside the normal range of IEEE binary64, so the only rounding
steps are the division `e / 50.0` and the final product.  A binary64 value is
represented exactly as a dyadic rational `m / 2 ^ k`, and round-to-nearest,
ties-to-even with 53 significand bits is implemented on integers. -/

/-- A binary64 value in the decoder's magnitude range, represented exactly as
the dyadic rational `m / 2 ^ k`. -/
structure F64 where
  m : Int
  k : Nat
deriving DecidableEq

/-- Smallest shift `k` (searched with bounded fuel, ample for the magnitudes
appearing in the decoder) such that `2 ^ 52 * b ≤ a * 2 ^ k`. -/
def rnShiftAux : Nat → Nat → Nat → Nat → Nat
  | 0, _, _, k => k
  | fuel + 1, a, b, k =>
    if 2 ^ 52 * b ≤ a * 2 ^ k then k else rnShiftAux fuel a b (k + 1)

def rnShift (a b : Nat) : Nat := rnShiftAux 1200 a b 0

/-- Round the quotient `a / b` of two naturals to the nearest binary64 value
(ties to even): scale into `[2 ^ 52, 2 ^ 53)`, divide, and round the
remainder. -/
def divRN (a b : Nat) : F64 :=
  let k := rnShift a b
  let m0 := a * 2 ^ k / b
  let r := a * 2 ^ k % b
  let m :=
    if b < 2 * r then m0 + 1
    else if 2 * r < b then m0
    else if m0 % 2 = 0 then m0 else m0 + 1
  ⟨(m : Int), k⟩

/-- Number of excess mantissa bits of a positive integer beyond 53 (searched
with bounded fuel, ample for the decoder's magnitudes): the smallest `s` with
`m < 2 ^ (53 + s)`. -/
def excessBitsAux : Nat → Nat → Nat → Nat
  | 0, _, s => s
  | fuel + 1, m, s => if m < 2 ^ (53 + s) then s else excessBitsAux fuel m (s + 1)

def excessBits (m : Nat) : Nat := excessBitsAux 200 m 0

/-- Round the positive dyadic rational `m / 2 ^ k` to 53 significand bits
(ties to even), for the exponent range arising in the decoder. -/
def roundDyadicPos (m : Nat) (k : Nat) : F64 :=
  let s := excessBits m
  if s = 0 then ⟨(m : Int), k⟩
  else
    let q := m / 2 ^ s
    let r := m % 2 ^ s
    let half := 2 ^ (s - 1)
    let q' :=
      if half < r then q + 1
      else if r < half then q
      else if q % 2 = 0 then q else q + 1
    ⟨(q' : Int), k - s⟩

/-- The binary64 product of an exactly-representable integer with a binary64
value: the exact product `base * x.m / 2 ^ x.k` rounded back to 53 bits. -/
def mulIntRN (base : Int) (x : F64) : F64 :=
  let prod := base * x.m
  if prod = 0 then ⟨0, 0⟩
  else if prod < 0 then
    let r := roundDyadicPos prod.natAbs x.k
    ⟨-r.m, r.k⟩
  else roundDyadicPos prod.natAbs x.k

/-- Python `int()` on a float value: truncation toward zero. -/
def truncF64 (x : F64) : Int :=
  x.m.tdiv (2 ^ x.k)

/-! ## OmiOpusDecoder.decode_packet (decoder.py) -/

/-- Little-endian 16-bit write used by the decoder:
`raw_audio[i*2] = val & 0xFF; raw_audio[i*2+1] = (val >> 8) & 0xFF`
(Python `&` and `>>` on a negative int follow two's-complement semantics,
i.e. Euclidean mod and floor shift). -/
def leBytes (val : Int) : List Nat :=
  [(val.emod 256).toNat, ((val.fdiv 256).emod 256).toNat]

/-- One sample of the fallback synthesis loop (decoder.py lines 108-128):

* `data_idx = i % len(clean_data)`; `byte1 = clean_data[data_idx]`,
  `byte2 = clean_data[(data_idx + 1) % len(clean_data)]`;
* `base_val = ((byte1 + byte2) / 2 - 128) * 100` — every step of this float
  expression is exact in binary64 for byte inputs (`byte1 + byte2` is an
  integer ≤ 510, its half is an exact half-integer, and the shift and scale
  stay well inside 53 bits), so `base_val` is exactly the integer
  `50 * (byte1 + byte2) - 12800`;
* `envelope = abs(((i * 17) % 100) - 50) / 50.0` — the division rounds;
* `val = int(base_val * envelope)` — the product rounds, then truncates;
* `val = max(-32768, min(32767, val))`. -/
def fallbackSampleVal (clean_data : List Nat) (i : Nat) : Int :=
  let data_idx := i % clean_data.length
  let byte1 := clean_data.getD data_idx 0
  let byte2 := clean_data.getD ((data_idx + 1) % clean_data.length) 0
  let base_val : Int := 50 * ((byte1 : Int) + (byte2 : Int)) - 12800
  let e : Nat := (((i * 17) % 100 : Int) - 50).natAbs
  let envelope : F64 := divRN e 50
  let val : Int := truncF64 (mulIntRN base_val envelope)
  max (-32768) (min 32767 val)

/-- The synthesized 320-sample frame (`frame_samples = 320`), emitted
little-endian into a 640-byte buffer. -/
def fallbackSynthFrame (clean_data : List Nat) : List Nat :=
  (List.range 320).flatMap fun i => leBytes (fallbackSampleVal clean_data i)

/-- The quiet-noise frame (decoder.py lines 133-140): one
`random.randint(-25, 25)` per sample, written little-endian.  The PRNG is
modelled as a stream `rng` of the successive values it returns. -/
def fallbackNoiseFrame (rng : Nat → Int) : List Nat :=
  (List.range 320).flatMap fun i => leBytes (rng i)

/-- `OmiOpusDecoder.decode_packet` (decoder.py lines 84-143).

* `functional` is `self.functional` (`true` = Native mode via opuslib,
  `false` = Fallback mode);
* `nativeDecode` models `self.decoder.decode(clean_data, 960, ...)`:
  `some pcm` for a normal return, `none` when it raises (the surrounding
  `except` then returns `b''`);
* `rng` models the `random.randint` stream used by the noise branch.

Packets of length ≤ 3 return `b''` before any decoding.  Otherwise the 3-byte
header is stripped.  In fallback mode `len(clean_data) > 0` always holds here,
so the branch taken is decided by `len(clean_data) >= 4`: the synthesis loop
when it holds, the quiet-noise frame otherwise. -/
def decode_packet (functional : Bool) (nativeDecode : List Nat → Option (List Nat))
    (rng : Nat → Int) (data : List Nat) : List Nat :=
  if data.length ≤ 3 then []
  else
    let clean_data := data.drop 3
    if functional then
      match nativeDecode clean_data with
      | some pcm => pcm
      | none => []
    else
      if 4 ≤ clean_data.length then fallbackSynthFrame clean_data
      else fallbackNoiseFrame rng

/-- `handle_ble_data` (main.py lines 65-80): decode the packet; if the decoded
PCM is non-empty (`if decoded_pcm:`), `put_nowait` it onto the audio queue; a
`QueueFull` exception is caught, so the frame is simply dropped. -/
def handle_ble_data (functional : Bool) (nativeDecode : List Nat → Option (List Nat))
    (rng : Nat → Int) (q : AsyncioQueue (List Nat)) (data : List Nat) :
    AsyncioQueue (List Nat) :=
  let decoded_pcm := decode_packet functional nativeDecode rng data
  if decoded_pcm = [] then q
  else (put_nowait q decoded_pcm).1

/-! ## Reference synthesis definitions for claim C6

Two definitions written from the specification's words (spec.md section 4.1 /
the claim), to be compared with the decoder embedding above. -/

/-- The reference synthesis exactly as the claim states it (no gain factor):
sample `i` is the clamped product of the centered average of the payload bytes
at positions `i mod len` and `(i+1) mod len` with the periodic envelope
`|((i*17) mod 100) - 50| / 50`, read as exact arithmetic with integer
truncation. -/
def claimFallbackSample (payload : List Nat) (i : Nat) : Int :=
  let b1 := payload.getD (i % payload.length) 0
  let b2 := payload.getD ((i + 1) % payload.length) 0
  let e : Nat := (((i * 17) % 100 : Int) - 50).natAbs
  -- centered average times envelope:
  -- ((b1 + b2)/2 - 128) * (e/50) = (b1 + b2 - 256) * e / 100, truncated
  let val : Int := (((b1 : Int) + (b2 : Int) - 256) * (e : Int)).tdiv 100
  max (-32768) (min 32767 val)

/-- The 320-sample little-endian frame of `claimFallbackSample`. -/
def claimFallbackFrame (payload : List Nat) : List Nat :=
  (List.range 320).flatMap fun i => leBytes (claimFallbackSample payload i)

/-- The reference synthesis amended to what the code computes: the centered
average is additionally scaled by the gain 100, the envelope division and the
product are evaluated in binary64, and the result is truncated toward zero
before clamping.  Byte positions are `i mod len` and `(i+1) mod len` as in
the spec's words. -/
def specFallbackSample (payload : List Nat) (i : Nat) : Int :=
  let b1 := payload.getD (i % payload.length) 0
  let b2 := payload.getD ((i + 1) % payload.length) 0
  -- the centered average scaled by the gain 100:
  -- ((b1 + b2)/2 - 128) * 100 = (b1 + b2 - 256) * 50, exact in binary64
  let base : Int := ((b1 : Int) + (b2 : Int) - 256) * 50
  let e : Nat := (((i * 17) % 100 : Int) - 50).natAbs
  let val : Int := truncF64 (mulIntRN base (divRN e 50))
  max (-32768) (min 32767 val)

/-- The 320-sample little-endian frame of `specFallbackSample`. -/
def specFallbackFrame (payload : List Nat) : List Nat :=
  (List.range 320).flatMap fun i => leBytes (specFallbackSample payload i)

/-! ## transcribe (transcribe.py)

One iteration of the `while True:` loop consumes one interaction with the
transport.  Two outcomes are possible:

* `connectFail`: `websockets.connect` (or entering/leaving the context
  manager) raises — control reaches the outer `except`, which reports a retry
  status and sleeps 5 seconds before the next iteration;
* `streamFail`: the connection is established, and a later mid-stream
  disconnect, send failure, or error from `gather` is absorbed by the inner
  handlers (`send_audio` breaks on exception, `receive_transcripts` catches
  `ConnectionClosed`, and the inner `try` around `gather` catches the rest),
  so the `async with` block exits normally and the loop re-enters its next
  iteration immediately, with no sleep.

External cancellation (`CancelledError`) is not an `Exception` in Python 3
and propagates, terminating the loop; the event list enumerates the
iterations that run before any such cancellation. -/

inductive TranscribeEvent
  | connectFail
  | streamFail
deriving DecidableEq

/-- Observable actions of one loop iteration: the `Connecting to Deepgram`
status at the top of the loop body, the `Connected` status after a successful
connect, and the `asyncio.sleep(5)` retry delay in the outer `except`. -/
inductive TranscribeAct
  | connecting
  | connected
  | retryDelay (seconds : Nat)
deriving DecidableEq

/-- The actions of one iteration of the `while True:` loop in `transcribe`. -/
def transcribeIteration : TranscribeEvent → List TranscribeAct
  | .connectFail => [.connecting, .retryDelay 5]
  | .streamFail => [.connecting, .connected]

/-- The action trace of the loop across successive transport outcomes; the
loop itself never returns, one iteration runs per event. -/
def transcribeLoop : List TranscribeEvent → List TranscribeAct
  | [] => []
  | e :: es => transcribeIteration e ++ transcribeLoop es

/-! ## String helpers (Python str semantics used by memory.py) -/

/-- Python `str.lower()` (the strings involved are ASCII). -/
def pyLower (s : String) : String := ⟨s.data.map Char.toLower⟩

/-- Python whitespace stripped by `str.strip()`. -/
def isPySpace (c : Char) : Bool :=
  c = ' ' || c = '\t' || c = '\n' || c = '\r' || c = '\x0b' || c = '\x0c'

/-- Python `str.strip()`. -/
def pyStrip (s : String) : String :=
  ⟨((s.data.dropWhile isPySpace).reverse.dropWhile isPySpace).reverse⟩

/-- Whether `needle` occurs at the start of `hay` (character lists). -/
def startsList : List Char → List Char → Bool
  | [], _ => true
  | _ :: _, [] => false
  | a :: as, b :: bs => a == b && startsList as bs

/-- Whether `needle` occurs somewhere inside `hay` (character lists). -/
def containsChars (hay needle : List Char) : Bool :=
  match hay with
  | [] => needle.isEmpty
  | _ :: t => startsList needle hay || containsChars t needle

/-- Python `needle in hay` on strings. -/
def strContains (hay needle : String) : Bool :=
  containsChars hay.data needle.data

/-- Python `" ".join(command_list)`. -/
def joinSpace : List String → String
  | [] => ""
  | [s] => s
  | s :: rest => s ++ " " ++ joinSpace rest

/-! ## Cooldown table and command execution (memory.py) -/

/-- The `_last_command_time` dict: command signature to timestamp of the last
successful execution. -/
def CooldownTable : Type := List (String × ℚ)

/-- Dict lookup (`command_key in _last_command_time` plus the read). -/
def tblLookup : List (String × ℚ) → String → Option ℚ
  | [], _ => none
  | (k', v) :: rest, k => if k' = k then some v else tblLookup rest k

/-- Dict update `_last_command_time[command_key] = current_time`. -/
def tblSet : List (String × ℚ) → String → ℚ → List (String × ℚ)
  | [], k, v => [(k, v)]
  | (k', v') :: rest, k, v =>
    if k' = k then (k, v) :: rest else (k', v') :: tblSet rest k v

/-- `COMMAND_COOLDOWN = 3.0` (memory.py line 20). -/
def COMMAND_COOLDOWN : ℚ := 3

/-- The execution environment of `_execute_system_command`: `sys.platform`
and whether `subprocess.Popen` succeeds (raises nothing). -/
structure SysEnv where
  platform : String
  popenOk : Bool
deriving DecidableEq

/-- The console report printed by `_execute_system_command`, which is how its
branches are distinguished to the observer (the return value is a bare bool). -/
inductive ExecReport
  | onCooldown
  | windowsOnly
  | launched
  | launchFailed
deriving DecidableEq

/-- Outcome of `_execute_system_command`: the returned bool, the cooldown
table afterwards, whether `subprocess.Popen` was invoked, and the report. -/
structure ExecResult where
  result : Bool
  table : List (String × ℚ)
  popenCalled : Bool
  report : ExecReport
deriving DecidableEq

/-- The part of `_execute_system_command` after the cooldown check
(memory.py lines 379-394): the platform gate, then `Popen`, then the table
update — which only happens after a successful launch. -/
def execLaunch (env : SysEnv) (table : List (String × ℚ)) (now : ℚ)
    (command_key : String) : ExecResult :=
  if env.platform ≠ "win32" then ⟨false, table, false, .windowsOnly⟩
  else if env.popenOk then ⟨true, tblSet table command_key now, true, .launched⟩
  else ⟨false, table, true, .launchFailed⟩

/-- `_execute_system_command` (memory.py lines 356-394): compute the command
key by joining the tokens; if the key has a table entry younger than
`COMMAND_COOLDOWN`, skip with the on-cooldown report; otherwise run the
platform-gated launch.  `description` is only printed. -/
def execSystemCommand (env : SysEnv) (table : List (String × ℚ)) (now : ℚ)
    (command_list : List String) (description : String) : ExecResult :=
  let command_key := joinSpace command_list
  let _ := description
  match tblLookup table command_key with
  | some last =>
    if now - last < COMMAND_COOLDOWN then ⟨false, table, false, .onCooldown⟩
    else execLaunch env table now command_key
  | none => execLaunch env table now command_key

/-! ## Hot-command and hot-phrase detection (memory.py) -/

/-- The wake-word variants of the literal tier (memory.py line 428). -/
def omi_triggers : List String :=
  ["hey omi", "oh me", "omi", "army", "o m i", "hey army", "on me", "only"]

/-- The literal notepad command patterns (memory.py lines 437-440). -/
def notepad_patterns : List String :=
  ["open notepad", "notepad", "open notes", "launch notepad",
   "start notepad", "open the notepad", "notepad please"]

/-- The literal tier's pattern loop (memory.py lines 443-448): for each
pattern contained in the lowered transcript, attempt the command; on success
return the execution message, otherwise keep scanning with the table the
attempt left behind. -/
def literalPatternLoop (env : SysEnv) (now : ℚ) (transcript_lower : String) :
    List String → List (String × ℚ) → Option String × List (String × ℚ)
  | [], table => (none, table)
  | p :: ps, table =>
    if strContains transcript_lower p then
      let r := execSystemCommand env table now ["notepad.exe"] "Opening Notepad..."
      if r.result then (some "Executed: open notepad", r.table)
      else literalPatternLoop env now transcript_lower ps r.table
    else literalPatternLoop env now transcript_lower ps table

/-- `detect_hot_command` (memory.py lines 397-451).

* `semAvail` is `SEMANTIC_MATCHING_AVAILABLE`; `semanticMatch` models the
  result of `match_semantic_intent` (the embedding model is external);
* the semantic tier runs only when available; a matched registry intent
  (`open_notepad` is the sole entry) executes its action and returns
  `Executed: <description>` on success, otherwise control falls through;
* the literal tier requires one of the `omi` trigger variants to occur in the
  lowered, stripped transcript, then scans the notepad patterns. -/
def detect_hot_command (semAvail : Bool) (semanticMatch : Option String)
    (env : SysEnv) (table : List (String × ℚ)) (now : ℚ) (transcript : String) :
    Option String × List (String × ℚ) :=
  let transcript_lower := pyStrip (pyLower transcript)
  let semStep : Option String × List (String × ℚ) :=
    if semAvail then
      match semanticMatch with
      | some name =>
        if name = "open_notepad" then
          let r := execSystemCommand env table now ["notepad.exe"] "Opening Notepad..."
          (if r.result then some "Executed: Open Windows Notepad" else none, r.table)
        else (none, table)
      | none => (none, table)
    else (none, table)
  match semStep with
  | (some s, table1) => (some s, table1)
  | (none, table1) =>
    let has_trigger := omi_triggers.any fun trigger => strContains transcript_lower trigger
    if has_trigger then literalPatternLoop env now transcript_lower notepad_patterns table1
    else (none, table1)

/-- `HOT_PHRASES` (memory.py lines 217-225), in insertion order. -/
def HOT_PHRASES : List (String × String) :=
  [("note this", "note"), ("remember this", "note"), ("important", "important"),
   ("idea", "idea"), ("todo", "todo"), ("remind me", "reminder"),
   ("save this", "note")]

/-- The first-match scan of `detect_hot_phrase`. -/
def findHotPhrase : List (String × String) → String → Option String
  | [], _ => none
  | (phrase, category) :: rest, tl =>
    if strContains tl phrase then some category else findHotPhrase rest tl

/-- `detect_hot_phrase` (memory.py lines 454-470): case-insensitive substring
scan of the fixed phrase-to-category mapping, first match wins. -/
def detect_hot_phrase (transcript : String) : Option String :=
  findHotPhrase HOT_PHRASES (pyLower transcript)

/-! ## Memory creation (memory.py) -/

/-- The memory record assembled by `create_memory` (the fields the claims
depend on). -/
structure MemoryData where
  text : String
  category : String
deriving DecidableEq

/-- The parts of `MemoryConfig` the write path branches on
(`init_memory_storage` always sets `local_storage = True`). -/
structure MemoryConfig where
  local_storage : Bool
deriving DecidableEq

/-- `MemoryStorage._store_locally` (memory.py lines 141-161): append the
formatted entry to the local file; `localOk` models whether the file write
succeeds (an exception is caught and yields `False` with nothing appended). -/
def store_locally (localOk : Bool) (store : List MemoryData)
    (memory_data : MemoryData) : Bool × List MemoryData :=
  if localOk then (true, store ++ [memory_data]) else (false, store)

/-- `MemoryStorage.create_memory` (memory.py lines 64-100): try the MCP API
first (`remoteOk` models `_create_via_mcp`: `True` only on HTTP 200, `False`
on any other status or exception); if it failed and local storage is enabled,
fall back to `_store_locally` and return its status. -/
def create_memory (config : MemoryConfig) (remoteOk localOk : Bool)
    (store : List MemoryData) (memory_data : MemoryData) : Bool × List MemoryData :=
  let mcp_success := remoteOk
  if ¬mcp_success ∧ config.local_storage then store_locally localOk store memory_data
  else (mcp_success, store)

/-- The hot-phrase half of `process_transcript_for_memory` (memory.py lines
490-497): detect a hot phrase; on a hit create the memory and return its
status with the category; otherwise report that nothing happened. -/
def hotPhraseProcessing (config : MemoryConfig) (remoteOk localOk : Bool)
    (store : List MemoryData) (transcript : String) :
    (Bool × Option String) × List MemoryData :=
  match detect_hot_phrase transcript with
  | some category =>
    let r := create_memory config remoteOk localOk store ⟨transcript, category⟩
    ((r.1, some category), r.2)
  | none => ((false, none), store)

/-- `process_transcript_for_memory` (memory.py lines 473-497): commands are
checked first; a successful command short-circuits with
`(True, "command: <result>")`; otherwise the transcript goes through the
hot-phrase path. -/
def process_transcript_for_memory (semAvail : Bool) (semanticMatch : Option String)
    (env : SysEnv) (table : List (String × ℚ)) (now : ℚ) (config : MemoryConfig)
    (remoteOk localOk : Bool) (store : List MemoryData) (transcript : String) :
    (Bool × Option String) × List (String × ℚ) × List MemoryData :=
  match detect_hot_command semAvail semanticMatch env table now transcript with
  | (some command_result, table1) =>
    ((true, some ("command: " ++ command_result)), table1, store)
  | (none, table1) =>
    let r := hotPhraseProcessing config remoteOk localOk store transcript
    (r.1, table1, r.2)

/-! ## Helper lemmas -/

lemma mod_succ_mod (i n : Nat) (hn : 0 < n) : (i % n + 1) % n = (i + 1) % n := by
  conv_rhs => rw [Nat.add_mod]
  rcases eq_or_lt_of_le hn with h | h
  · rw [← h]
    simp [Nat.mod_one]
  · rw [Nat.mod_eq_of_lt h]

lemma fallbackSampleVal_eq_spec (clean_data : List Nat) (h : 0 < clean_data.length)
    (i : Nat) : fallbackSampleVal clean_data i = specFallbackSample clean_data i := by
  have hb : ∀ x y : Int, 50 * (x + y) - 12800 = (x + y - 256) * 50 := fun x y => by ring
  simp only [fallbackSampleVal, specFallbackSample,
    mod_succ_mod i clean_data.length h, hb]

lemma fallbackSynthFrame_eq_spec (clean_data : List Nat) (h : 0 < clean_data.length) :
    fallbackSynthFrame clean_data = specFallbackFrame clean_data := by
  unfold fallbackSynthFrame specFallbackFrame
  congr 1
  funext i
  rw [fallbackSampleVal_eq_spec clean_data h i]

/-! ## Claim theorems -/

/-- C1: the claim says the frame queue is bounded and drops the newest frame
once its configured capacity is reached.  The queue `main.py` actually
constructs is `Queue()` with `maxsize = 0`: `put_nowait` always succeeds and
appends, so the length exceeds every proposed finite capacity — the code
contradicts the spec's bounded-by-design requirement. -/
theorem c1_queue_unbounded_growth :
    audio_queue.maxsize = 0
    ∧ ∀ (frames : List (List Nat)) (x : List Nat),
        put_nowait (⟨0, frames⟩ : AsyncioQueue (List Nat)) x = (⟨0, frames ++ [x]⟩, true)
        ∧ ((put_nowait (⟨0, frames⟩ : AsyncioQueue (List Nat)) x).1.items.length
            = frames.length + 1) := by
  refine ⟨rfl, fun frames x => ⟨?_, ?_⟩⟩ <;> simp [put_nowait]

/-- C5: every raw packet of length at most 3 decodes to the empty frame, in
Native mode and in Fallback mode alike — the header check precedes both
decoding paths. -/
theorem c5_short_packet_empty_frame (functional : Bool)
    (nativeDecode : List Nat → Option (List Nat)) (rng : Nat → Int)
    (data : List Nat) (h : data.length ≤ 3) :
    decode_packet functional nativeDecode rng data = [] := by
  simp [decode_packet, h]

theorem c5_short_packet_witness :
    ([1, 2, 3] : List Nat).length ≤ 3
    ∧ decode_packet true (fun _ => some [7, 7]) (fun _ => 0) [1, 2, 3] = []
    ∧ decode_packet false (fun _ => some [7, 7]) (fun _ => 0) [1, 2, 3] = [] :=
  ⟨by decide, c5_short_packet_empty_frame true _ _ _ (by decide),
    c5_short_packet_empty_frame false _ _ _ (by decide)⟩

/-- C9: `handle_ble_data` pushes a frame only when the decoded PCM is
non-empty, so a packet decoding to the empty frame leaves the queue untouched
and the queue never contains an empty frame. -/
theorem c9_no_empty_frames (functional : Bool)
    (nativeDecode : List Nat → Option (List Nat)) (rng : Nat → Int)
    (q : AsyncioQueue (List Nat)) (data : List Nat)
    (h : [] ∉ q.items) :
    (decode_packet functional nativeDecode rng data = [] →
      handle_ble_data functional nativeDecode rng q data = q)
    ∧ [] ∉ (handle_ble_data functional nativeDecode rng q data).items := by
  constructor
  · intro hd
    simp [handle_ble_data, hd]
  · by_cases hd : decode_packet functional nativeDecode rng data = []
    · simpa [handle_ble_data, hd] using h
    · simp only [handle_ble_data, if_neg hd]
      by_cases hfull : 0 < q.maxsize ∧ q.maxsize ≤ q.items.length
      · simpa [put_nowait, hfull] using h
      · simp only [put_nowait, if_neg hfull]
        simp only [List.mem_append, List.mem_singleton]
        rintro (hin | hin)
        · exact h hin
        · exact hd hin.symm

theorem c9_no_empty_frames_witness :
    ([] : List Nat) ∉ [[5]]
    ∧ handle_ble_data false (fun _ => none) (fun _ => 0)
        (⟨0, [[5]]⟩ : AsyncioQueue (List Nat)) [1, 2, 3]
        = (⟨0, [[5]]⟩ : AsyncioQueue (List Nat))
    ∧ ([] : List Nat) ∉ (handle_ble_data false (fun _ => none) (fun _ => 0)
        (⟨0, [[5]]⟩ : AsyncioQueue (List Nat)) [1, 2, 3]).items :=
  ⟨by decide,
    (c9_no_empty_frames false _ _ _ _ (by decide)).1 (by decide),
    (c9_no_empty_frames false _ _ _ _ (by decide)).2⟩

/-- C2 counterexample: the claim asserts determinism for every raw packet of
length > 3, but a packet of length 4 has a 1-byte payload, which takes the
`random.randint` quiet-noise branch: two calls consuming different PRNG
values return different bytes. -/
theorem c2_noise_nondeterministic :
    decode_packet false (fun _ => none) (fun _ => 0) [0, 0, 0, 0]
      ≠ decode_packet false (fun _ => none) (fun _ => 1) [0, 0, 0, 0] := by
  intro h
  exact absurd (congrArg (fun l => l.getD 0 99) h) (by decide)

/-- C2 (amended): fallback-mode decode is deterministic for raw packets with
at least 4 payload bytes (total length ≥ 7): the synthesis branch is taken
and the output does not depend on the PRNG stream. -/
theorem c2_deterministic_synthesis (data : List Nat)
    (nativeDecode : List Nat → Option (List Nat)) (r1 r2 : Nat → Int)
    (h : 7 ≤ data.length) :
    decode_packet false nativeDecode r1 data = decode_packet false nativeDecode r2 data := by
  have h3 : ¬data.length ≤ 3 := by omega
  have h4 : 4 ≤ data.length - 3 := by omega
  simp [decode_packet, h3, List.length_drop, h4]

theorem c2_deterministic_synthesis_witness :
    7 ≤ ([0, 0, 0, 1, 2, 3, 4] : List Nat).length
    ∧ decode_packet false (fun _ => none) (fun _ => 0) [0, 0, 0, 1, 2, 3, 4]
      = decode_packet false (fun _ => none) (fun _ => 1) [0, 0, 0, 1, 2, 3, 4] :=
  ⟨by decide, c2_deterministic_synthesis _ _ _ _ (by decide)⟩

/-- C6 counterexample: the claim's reference synthesis is off by the gain
factor 100 the code applies (payload `[255,255,255,255]`, sample 1: code
emits 8382, the claim's formula 83), and payloads of 1-3 bytes take the
random-noise branch instead of the synthesis (payload `[9]`). -/
theorem c6_reference_synthesis_counterexample :
    decode_packet false (fun _ => none) (fun _ => 0) [0, 0, 0, 255, 255, 255, 255]
      ≠ claimFallbackFrame [255, 255, 255, 255]
    ∧ decode_packet false (fun _ => none) (fun _ => 0) [0, 0, 0, 9]
      ≠ claimFallbackFrame [9] := by
  constructor <;>
    · intro h
      exact absurd (congrArg (fun l => l.getD 2 0) h) (by decide)

/-- C6 (amended): for every packet whose header-stripped payload has at least
4 bytes, fallback-mode decode equals the reference synthesis with the gain
100 the code applies to the centered average, the products evaluated in
binary64 and truncated toward zero before clamping. -/
theorem c6_synthesis_formula (data : List Nat)
    (nativeDecode : List Nat → Option (List Nat)) (rng : Nat → Int)
    (h : 7 ≤ data.length) :
    decode_packet false nativeDecode rng data = specFallbackFrame (data.drop 3) := by
  have h3 : ¬data.length ≤ 3 := by omega
  have h4 : 4 ≤ data.length - 3 := by omega
  have h0 : 0 < (data.drop 3).length := by
    rw [List.length_drop]
    omega
  simp [decode_packet, h3, List.length_drop, h4, fallbackSynthFrame_eq_spec _ h0]

theorem c6_synthesis_formula_witness :
    7 ≤ ([0, 0, 0, 1, 2, 3, 4] : List Nat).length
    ∧ decode_packet false (fun _ => none) (fun _ => 0) [0, 0, 0, 1, 2, 3, 4]
      = specFallbackFrame [1, 2, 3, 4] :=
  ⟨by decide, c6_synthesis_formula _ _ _ (by decide)⟩

/-- C3 counterexample: the claim says every transport-level failure waits the
fixed 5-second delay before reconnecting, but a mid-stream failure is
absorbed by the inner handlers and its iteration contains no retry delay —
only a connect-phase failure sleeps. -/
theorem c3_no_delay_on_stream_failure :
    TranscribeAct.retryDelay 5 ∉ transcribeIteration .streamFail
    ∧ TranscribeAct.retryDelay 5 ∈ transcribeIteration .connectFail := by
  decide

/-- C3 (amended): a connect-phase failure reaches the outer handler and waits
5 seconds before the next `Connecting`; a mid-stream failure (disconnect or
send failure) is absorbed by the inner handlers and the loop re-enters
`Connecting` immediately, with no delay; the retry loop is unbounded — every
iteration begins with a new `Connecting`, however many failures precede it,
and only external cancellation ends the trace. -/
theorem c3_retry_loop_behaviour :
    transcribeIteration .connectFail = [.connecting, .retryDelay 5]
    ∧ transcribeIteration .streamFail = [.connecting, .connected]
    ∧ ∀ events : List TranscribeEvent,
        (transcribeLoop events).count .connecting = events.length := by
  refine ⟨rfl, rfl, ?_⟩
  intro events
  induction events with
  | nil => rfl
  | cons e es ih =>
    show (transcribeIteration e ++ transcribeLoop es).count .connecting = es.length + 1
    rw [List.count_append, ih]
    have h1 : List.count TranscribeAct.connecting (transcribeIteration e) = 1 := by
      cases e <;> decide
    rw [h1]
    omega

/-- C4: a dispatch whose command signature has a cooldown-table entry younger
than 3 seconds is skipped — `Popen` is not invoked, the table is unchanged,
and the printed report is the distinguishable on-cooldown message; a dispatch
whose entry is at least 3 seconds old executes normally (on the supported
platform with a successful launch) and the entry is updated to the current
time. -/
theorem c4_cooldown_window (env : SysEnv) (table : List (String × ℚ)) (now : ℚ)
    (command_list : List String) (description : String) (last : ℚ)
    (hl : tblLookup table (joinSpace command_list) = some last) :
    (now - last < 3 →
      execSystemCommand env table now command_list description
        = ⟨false, table, false, .onCooldown⟩)
    ∧ (3 ≤ now - last → env.platform = "win32" → env.popenOk = true →
      execSystemCommand env table now command_list description
        = ⟨true, tblSet table (joinSpace command_list) now, true, .launched⟩) := by
  constructor
  · intro h
    simp only [execSystemCommand, hl]
    rw [if_pos (show now - last < COMMAND_COOLDOWN from h)]
  · intro h hp hpo
    simp only [execSystemCommand, hl]
    rw [if_neg (show ¬now - last < COMMAND_COOLDOWN from not_lt.mpr h)]
    simp [execLaunch, hp, hpo]

theorem c4_cooldown_window_witness :
    tblLookup [("notepad.exe", (0 : ℚ))] (joinSpace ["notepad.exe"]) = some 0
    ∧ execSystemCommand ⟨"win32", true⟩ [("notepad.exe", (0 : ℚ))] 1
        ["notepad.exe"] "Opening Notepad..."
        = ⟨false, [("notepad.exe", (0 : ℚ))], false, .onCooldown⟩
    ∧ execSystemCommand ⟨"win32", true⟩ [("notepad.exe", (0 : ℚ))] 5
        ["notepad.exe"] "Opening Notepad..."
        = ⟨true, [("notepad.exe", (5 : ℚ))], true, .launched⟩ :=
  ⟨rfl,
    (c4_cooldown_window ⟨"win32", true⟩ [("notepad.exe", (0 : ℚ))] 1
      ["notepad.exe"] "Opening Notepad..." 0 rfl).1 (by norm_num),
    (c4_cooldown_window ⟨"win32", true⟩ [("notepad.exe", (0 : ℚ))] 5
      ["notepad.exe"] "Opening Notepad..." 0 rfl).2 (by norm_num) rfl rfl⟩

/-- C7: in the literal tier (semantic matching unavailable), a command fires
only with both a wake-word variant and a command pattern present: any
transcript containing no trigger variant yields no match and leaves the
cooldown table untouched, while "hey omi open notepad" (fresh table,
supported platform) fires the notepad command. -/
theorem c7_literal_tier (t : String) (env : SysEnv) (table : List (String × ℚ))
    (now : ℚ)
    (h : ∀ trig ∈ omi_triggers, strContains (pyStrip (pyLower t)) trig = false) :
    detect_hot_command false none env table now t = (none, table)
    ∧ detect_hot_command false none ⟨"win32", true⟩ [] now "hey omi open notepad"
        = (some "Executed: open notepad", [("notepad.exe", now)]) := by
  constructor
  · have hany : (omi_triggers.any fun trigger =>
        strContains (pyStrip (pyLower t)) trigger) = false := by
      rw [List.any_eq_false]
      intro x hx
      simp [h x hx]
    simp [detect_hot_command, hany]
  · rfl

theorem c7_literal_tier_witness :
    (∀ trig ∈ omi_triggers, strContains (pyStrip (pyLower "open notepad")) trig = false)
    ∧ detect_hot_command false none ⟨"linux", true⟩ [] 0 "open notepad" = (none, [])
    ∧ detect_hot_command false none ⟨"win32", true⟩ [] 0 "hey omi open notepad"
        = (some "Executed: open notepad", [("notepad.exe", 0)]) :=
  ⟨by decide,
    (c7_literal_tier "open notepad" ⟨"linux", true⟩ [] 0 (by decide)).1,
    (c7_literal_tier "open notepad" ⟨"linux", true⟩ [] 0 (by decide)).2⟩

/-- C8: the memory write path is remote-first with local fallback — a remote
success returns "created" without touching the local store; a remote failure
appends exactly one entry to the local store and returns "created" when the
local write succeeds; the outcome is "failed" only when both paths fail. -/
theorem c8_remote_first_local_fallback (config : MemoryConfig)
    (remoteOk localOk : Bool) (store : List MemoryData) (memory_data : MemoryData)
    (h : config.local_storage = true) :
    (remoteOk = true →
      create_memory config remoteOk localOk store memory_data = (true, store))
    ∧ (remoteOk = false → localOk = true →
      create_memory config remoteOk localOk store memory_data
        = (true, store ++ [memory_data])
      ∧ (store ++ [memory_data]).length = store.length + 1)
    ∧ (remoteOk = false → localOk = false →
      create_memory config remoteOk localOk store memory_data = (false, store)) := by
  refine ⟨?_, ?_, ?_⟩ <;> intros <;> subst_vars <;>
    simp [create_memory, store_locally, h]

theorem c8_remote_first_local_fallback_witness :
    (⟨true⟩ : MemoryConfig).local_storage = true
    ∧ create_memory ⟨true⟩ false true [] ⟨"note this down", "note"⟩
        = (true, [⟨"note this down", "note"⟩])
    ∧ create_memory ⟨true⟩ true false [] ⟨"note this down", "note"⟩ = (true, [])
    ∧ create_memory ⟨true⟩ false false [] ⟨"note this down", "note"⟩ = (false, []) :=
  ⟨rfl,
    ((c8_remote_first_local_fallback ⟨true⟩ false true [] ⟨"note this down", "note"⟩
      rfl).2.1 rfl rfl).1,
    (c8_remote_first_local_fallback ⟨true⟩ true false [] ⟨"note this down", "note"⟩
      rfl).1 rfl,
    (c8_remote_first_local_fallback ⟨true⟩ false false [] ⟨"note this down", "note"⟩
      rfl).2.2 rfl rfl⟩

lemma execSystemCommand_fail_table (env : SysEnv) (table : List (String × ℚ))
    (now : ℚ) (command_list : List String) (description : String)
    (h : (execSystemCommand env table now command_list description).result = false) :
    (execSystemCommand env table now command_list description).table = table := by
  revert h
  simp only [execSystemCommand, execLaunch]
  cases tblLookup table (joinSpace command_list) <;>
    · intro h
      dsimp only at h ⊢
      split_ifs at h ⊢ <;> simp_all

lemma literalPatternLoop_fail (env : SysEnv) (now : ℚ) (tl : String)
    (table : List (String × ℚ))
    (H : (execSystemCommand env table now ["notepad.exe"] "Opening Notepad...").result
        = false) :
    ∀ ps, literalPatternLoop env now tl ps table = (none, table) := by
  intro ps
  induction ps with
  | nil => rfl
  | cons p ps ih =>
    unfold literalPatternLoop
    by_cases hc : strContains tl p = true
    · rw [if_pos hc]
      simp only [execSystemCommand_fail_table env table now ["notepad.exe"]
        "Opening Notepad..." H, H, Bool.false_eq_true, if_false]
      exact ih
    · rw [if_neg hc]
      exact ih

lemma detect_hot_command_fail (env : SysEnv) (table : List (String × ℚ))
    (now : ℚ) (t : String)
    (H : (execSystemCommand env table now ["notepad.exe"] "Opening Notepad...").result
        = false) :
    detect_hot_command false none env table now t = (none, table) := by
  by_cases htr : (omi_triggers.any fun trigger =>
      strContains (pyStrip (pyLower t)) trigger) = true
  · simp [detect_hot_command, htr,
      literalPatternLoop_fail env now (pyStrip (pyLower t)) table H]
  · simp [detect_hot_command, htr]

lemma findHotPhrase_mem : ∀ (l : List (String × String)) (tl c : String),
    findHotPhrase l tl = some c → c ∈ l.map Prod.snd := by
  intro l
  induction l with
  | nil =>
    intro tl c h
    simp [findHotPhrase] at h
  | cons pc rest ih =>
    intro tl c h
    obtain ⟨phrase, category⟩ := pc
    unfold findHotPhrase at h
    by_cases hc : strContains tl phrase = true
    · rw [if_pos hc] at h
      simp only [Option.some.injEq] at h
      simp [← h]
    · rw [if_neg hc] at h
      simp [ih tl c h]

lemma detect_hot_phrase_categories (t c : String)
    (h : detect_hot_phrase t = some c) :
    c ∈ ["note", "important", "idea", "todo", "reminder"] := by
  have hm := findHotPhrase_mem HOT_PHRASES (pyLower t) c h
  simp [HOT_PHRASES] at hm
  rcases hm with h1 | h1 | h1 | h1 | h1 | h1 <;> subst h1 <;> simp

lemma str_length_eq_zero (r : String) (h : r.length = 0) : r = "" := by
  cases r with
  | mk data =>
    simp [String.length] at h
    subst h
    rfl

lemma cat_ne_command (c r : String)
    (hc : c ∈ ["note", "important", "idea", "todo", "reminder"]) :
    c ≠ "command: " ++ r := by
  intro h
  have hlen := congrArg String.length h
  rw [String.length_append] at hlen
  fin_cases hc
  · rw [show ("note" : String).length = 4 from rfl,
      show ("command: " : String).length = 9 from rfl] at hlen
    omega
  · rw [show ("important" : String).length = 9 from rfl,
      show ("command: " : String).length = 9 from rfl] at hlen
    have hr : r = "" := str_length_eq_zero r (by omega)
    subst hr
    exact absurd h (by decide)
  · rw [show ("idea" : String).length = 4 from rfl,
      show ("command: " : String).length = 9 from rfl] at hlen
    omega
  · rw [show ("todo" : String).length = 4 from rfl,
      show ("command: " : String).length = 9 from rfl] at hlen
    omega
  · rw [show ("reminder" : String).length = 8 from rfl,
      show ("command: " : String).length = 9 from rfl] at hlen
    omega

/-- C10: when command execution is suppressed (the notepad launch reports
failure — cooldown active, non-Windows platform, or `Popen` error), transcript
processing continues: the transcript goes through the hot-phrase path, the
cooldown table is left unchanged, and the overall result never reports a
command execution. -/
theorem c10_suppressed_command_continues (t : String) (env : SysEnv)
    (table : List (String × ℚ)) (now : ℚ) (config : MemoryConfig)
    (remoteOk localOk : Bool) (store : List MemoryData)
    (H : (execSystemCommand env table now ["notepad.exe"] "Opening Notepad...").result
        = false) :
    process_transcript_for_memory false none env table now config remoteOk localOk store t
      = ((hotPhraseProcessing config remoteOk localOk store t).1, table,
         (hotPhraseProcessing config remoteOk localOk store t).2)
    ∧ ∀ r, (process_transcript_for_memory false none env table now config
        remoteOk localOk store t).1.2 ≠ some ("command: " ++ r) := by
  have hd := detect_hot_command_fail env table now t H
  constructor
  · simp only [process_transcript_for_memory, hd]
  · intro r hc
    simp only [process_transcript_for_memory, hd] at hc
    unfold hotPhraseProcessing at hc
    cases hp : detect_hot_phrase t with
    | none =>
      rw [hp] at hc
      simp at hc
    | some category =>
      rw [hp] at hc
      simp at hc
      exact cat_ne_command category r (detect_hot_phrase_categories t category hp) hc

theorem c10_suppressed_command_witness :
    (execSystemCommand ⟨"linux", true⟩ [] 0 ["notepad.exe"] "Opening Notepad...").result
      = false
    ∧ process_transcript_for_memory false none ⟨"linux", true⟩ [] 0 ⟨true⟩ false true []
        "remember this for later"
      = ((hotPhraseProcessing ⟨true⟩ false true [] "remember this for later").1, [],
         (hotPhraseProcessing ⟨true⟩ false true [] "remember this for later").2)
    ∧ ∀ r, (process_transcript_for_memory false none ⟨"linux", true⟩ [] 0 ⟨true⟩ false
        true [] "remember this for later").1.2 ≠ some ("command: " ++ r) :=
  ⟨rfl,
    (c10_suppressed_command_continues "remember this for later" ⟨"linux", true⟩ [] 0
      ⟨true⟩ false true [] rfl).1,
    (c10_suppressed_command_continues "remember this for later" ⟨"linux", true⟩ [] 0
      ⟨true⟩ false true [] rfl).2⟩
